import Mathlib

/-!
Verification development for the spacerocks simulation core.

Each definition in the first part of this file is a shallow embedding of a
function from the Rust source (`src/components.rs`, `src/resources.rs`,
`src/main.rs`, `src/plugins/ufo.rs`).  Machine integers (`u8`, `u32`, `i32`)
are embedded as `Nat`/`Int`; the guarded subtractions of the source never
wrap, which is part of what is proved below.  `f32` arithmetic is embedded
as exact arithmetic over `ℚ` (where the source uses only field operations
and comparisons) or over `ℝ` (where the source takes square roots).
-/

namespace Spacerocks

/-- `AsteroidSize` from `src/components.rs`. -/
inductive AsteroidSize
  | Tiny
  | Small
  | Medium
  | Large
deriving DecidableEq, Repr

/-- `AsteroidSize::smaller` from `src/components.rs`. -/
def AsteroidSize.smaller : AsteroidSize → Option AsteroidSize
  | .Tiny => none
  | .Small => some .Tiny
  | .Medium => some .Small
  | .Large => some .Medium

/-- `AsteroidSize::cost` from `src/components.rs`:
`Tiny => 1, _ => 2 * self.smaller().unwrap().cost()`.  The recursion of the
source is resolved per constructor (Lean enums have no structural subterms);
`cost_eq_double_smaller` below checks the source recurrence. -/
def AsteroidSize.cost : AsteroidSize → Nat
  | .Tiny => 1
  | .Small => 2
  | .Medium => 4
  | .Large => 8

/-- `AsteroidSize::radius` from `src/components.rs` (values are exact). -/
def AsteroidSize.sizeRadius : AsteroidSize → ℚ
  | .Tiny => 4
  | .Small => 8
  | .Medium => 16
  | .Large => 24

/-- `asteroid_score` from `src/main.rs`. -/
def asteroidScore : AsteroidSize → Nat
  | .Tiny => 50
  | .Small => 100
  | .Medium => 150
  | .Large => 200

/-- `Level::asteroid_sizes` from `src/resources.rs`; the `Level` resource is
its `u32` counter. -/
def asteroidSizes (level : Nat) : List AsteroidSize :=
  if level ≤ 4 then [.Large]
  else if level ≤ 8 then [.Large, .Medium]
  else if level ≤ 12 then [.Large, .Medium, .Small]
  else [.Large, .Medium, .Small, .Tiny]

/-- `Level::asteroid_frag_count` from `src/resources.rs`. -/
def asteroidFragCount (level : Nat) : Nat := 2 + level / 20

/-- The initial budget of `Level::asteroids` from `src/resources.rs`:
`(self.0 % 20 + 2) * AsteroidSize::Large.cost()`. -/
def levelBudget (level : Nat) : Nat := (level % 20 + 2) * AsteroidSize.cost .Large

/-- The `cycle().scan(budget, ...)` loop of `Level::asteroids` from
`src/resources.rs`.  `idx` is the position in the cycled size list; the scan
closure either spends the full cost of the cycled size (when the budget
covers it), spends 1 on a `Tiny` (when the budget is still positive), or
ends the iterator.  A cycle of an empty list yields nothing. -/
def genAsteroids (sizes : List AsteroidSize) (budget idx : Nat) : List AsteroidSize :=
  if sizes.isEmpty then []
  else if (sizes.getD (idx % sizes.length) .Tiny).cost ≤ budget then
    sizes.getD (idx % sizes.length) .Tiny ::
      genAsteroids sizes (budget - (sizes.getD (idx % sizes.length) .Tiny).cost) (idx + 1)
  else if 0 < budget then
    .Tiny :: genAsteroids sizes (budget - 1) (idx + 1)
  else []
termination_by budget
decreasing_by
  all_goals
    have h : 0 < (sizes.getD (idx % sizes.length) AsteroidSize.Tiny).cost := by
      cases sizes.getD (idx % sizes.length) AsteroidSize.Tiny <;> decide
    omega

/-- `Level::asteroids` from `src/resources.rs`. -/
def levelAsteroids (level : Nat) : List AsteroidSize :=
  genAsteroids (asteroidSizes level) (levelBudget level) 0

/-- One emission of the budget allocator, instrumented with the budget
before and after the emission (for stating the budget invariant). -/
structure AllocEntry where
  size : AsteroidSize
  before : Nat
  after : Nat
deriving DecidableEq, Repr

/-- `genAsteroids` instrumented with the remaining budget around each
emission; same branch structure as the source scan closure. -/
def genTrace (sizes : List AsteroidSize) (budget idx : Nat) : List AllocEntry :=
  if sizes.isEmpty then []
  else if (sizes.getD (idx % sizes.length) .Tiny).cost ≤ budget then
    ⟨sizes.getD (idx % sizes.length) .Tiny, budget,
        budget - (sizes.getD (idx % sizes.length) .Tiny).cost⟩ ::
      genTrace sizes (budget - (sizes.getD (idx % sizes.length) .Tiny).cost) (idx + 1)
  else if 0 < budget then
    ⟨.Tiny, budget, budget - 1⟩ :: genTrace sizes (budget - 1) (idx + 1)
  else []
termination_by budget
decreasing_by
  all_goals
    have h : 0 < (sizes.getD (idx % sizes.length) AsteroidSize.Tiny).cost := by
      cases sizes.getD (idx % sizes.length) AsteroidSize.Tiny <;> decide
    omega

/-- The remaining budget after the allocator has finished: the `after`
field of the last trace entry (or the initial budget if nothing was
emitted). -/
def finalBudget (sizes : List AsteroidSize) (budget idx : Nat) : Nat :=
  (genTrace sizes budget idx).foldl (fun _ e => e.after) budget

/-! ### Plasma projectile hits (C2)

`ship_projectile_asteroid_hit_system` in `src/main.rs` and
`ship_projectile_ufo_hit_system` in `src/plugins/ufo.rs` treat a
`ShipProjectile::Plasma { power }` hit identically; the arithmetic over
`f32` is embedded over `ℚ`.  Note that the Rust pattern
`ShipProjectile::Plasma { mut power }` binds a local copy of the stored
power, and the component is never written back. -/

/-- Result of one plasma hit against a target (asteroid or UFO). -/
structure PlasmaHit where
  /-- value stored in the `ShipProjectile::Plasma` component after the hit
  (the source never writes the component back). -/
  storedPower : ℚ
  /-- the local `power` after `power -= effect`; it becomes the new
  collision radius, and the new sprite scale is this over 16. -/
  localPower : ℚ
  /-- the hit's effect on the target. -/
  effect : ℚ
  /-- whether `commands.entity(projectile_entity).despawn()` ran. -/
  despawned : Bool
  /-- target integrity (asteroid `integrity` / ufo `life`) after the hit. -/
  targetIntegrity : ℤ
deriving DecidableEq, Repr

/-- The `ShipProjectile::Plasma` arm of the two projectile hit systems.
`power` is the stored power, `dist` the value of
`projectile_shape.distance(target_shape)`, `integrity` the target's
integrity (`i32`). -/
def plasmaHitStep (power dist : ℚ) (integrity : ℤ) : PlasmaHit :=
  let overlap : ℚ := -(min dist 0)
  let effect : ℚ := min overlap (integrity : ℚ)
  let p : ℚ := power - effect
  { storedPower := power
    localPower := p
    effect := effect
    despawned := decide (p ≤ 0)
    targetIntegrity := if 0 < integrity then integrity - ⌈effect⌉ else integrity }

/-- Stored plasma power after a sequence of hits, each hit given by the
`distance` value and the target integrity seen at that hit. -/
def plasmaStoredAfter (power : ℚ) (hits : List (ℚ × ℤ)) : ℚ :=
  hits.foldl (fun pw h => (plasmaHitStep pw h.1 h.2).storedPower) power

/-! ### Ship counter decrements (C9)

`u8` values are embedded as integers together with the proof obligation
that the source's subtractions never go below zero.  `u8::saturating_sub`
is `fun a b => max (a - b) 0`. -/

/-- `u8::saturating_sub` on the integer embedding of `u8`. -/
def u8SaturatingSub (a b : ℤ) : ℤ := max (a - b) 0

/-- The counter updates of `Ship::die` in `src/components.rs`:
lives, the four weapon levels and the shield. -/
structure DiePenalty where
  lives : ℤ
  weaponRapidLevel : ℤ
  weaponSpreadLevel : ℤ
  weaponBeamLevel : ℤ
  weaponPlasmaLevel : ℤ
  shieldLevel : ℤ
deriving DecidableEq, Repr

/-- Counter part of `Ship::die` from `src/components.rs`. -/
def shipDieCounters (lives rapid spread beam plasma : ℤ) : DiePenalty :=
  { lives := u8SaturatingSub lives 1
    weaponRapidLevel := max (u8SaturatingSub rapid 1) 1
    weaponSpreadLevel := u8SaturatingSub spread 1
    weaponBeamLevel := u8SaturatingSub beam 1
    weaponPlasmaLevel := u8SaturatingSub plasma 1
    shieldLevel := 0 }

/-- The `Powerup::LoseLife` arm of `ship_powerup_collision_system` in
`src/main.rs`: `ship.lives = ship.lives.max(1) - 1`. -/
def loseLifeLives (lives : ℤ) : ℤ := max lives 1 - 1

/-- The shieldless arm of `ship_asteroid_collision_system` in
`src/main.rs`: `ship.lives = ship.lives.max(1) - 1`. -/
def collisionDeathLives (lives : ℤ) : ℤ := max lives 1 - 1

/-! ### Beam state machine (C4)

The beam branch of `ship_physics` in `src/main.rs`.  The tuning constants
live in `src/constants.rs`, which is not part of the sources here, so they
are parameters of the embedding. -/

/-- Modelled from the spec: the beam tuning constants
(`BEAM_BASE_LENGTH`, `BEAM_LENGTH_PER_LEVEL`, `BEAM_EXTEND_TIME`,
`BEAM_RETRACT_RATE`, `BEAM_RECHARGE_RATE`) come from `src/constants.rs`,
which is absent from the given sources; the spec describes the ceiling as
`base + per_level*level` without numeric values, so the constants are kept
abstract. -/
structure BeamConsts where
  base : ℚ
  perLevel : ℚ
  extendTime : ℚ
  retractRate : ℚ
  rechargeRate : ℚ
deriving DecidableEq, Repr

/-- The `Beam` component fields updated by `ship_physics`
(`src/components.rs`; the construction in `src/main.rs` sets exactly
these four fields). -/
structure BeamState where
  length : ℚ
  maxLength : ℚ
  sustained : ℚ
  cooldown : ℚ
deriving DecidableEq, Repr

/-- `beam.max_length` ceiling for a given beam weapon level:
`BEAM_BASE_LENGTH + BEAM_LENGTH_PER_LEVEL * ship.weapon_beam_level`. -/
def beamCeiling (c : BeamConsts) (level : Nat) : ℚ := c.base + c.perLevel * level

/-- Beam spawned by the firing branch of `ship_physics` when no beam
exists: `length = 0.0`, `max_length` at the level ceiling, `sustained` and
`cooldown` zero. -/
def beamSpawn (c : BeamConsts) (level : Nat) : BeamState :=
  { length := 0, maxLength := beamCeiling c level, sustained := 0, cooldown := 0 }

/-- One frame of the firing branch of `ship_physics` for an existing beam:
accumulate `sustained`; past `BEAM_EXTEND_TIME` shrink `max_length` by
`dt * BEAM_RETRACT_RATE` (floored at 0); when `cooldown ≤ 0` grow `length`
toward `max_length`, else count the cooldown down. -/
def beamFireStep (c : BeamConsts) (dt : ℚ) (s : BeamState) : BeamState :=
  let s1 := { s with sustained := s.sustained + dt }
  let s2 :=
    if c.extendTime < s1.sustained then
      { s1 with maxLength := max (s1.maxLength - dt * c.retractRate) 0 }
    else s1
  if s2.cooldown ≤ 0 then
    { s2 with length := min s2.maxLength (s2.length + s2.maxLength * dt / c.extendTime) }
  else
    { s2 with cooldown := s2.cooldown - dt }

/-- One frame of the not-firing beam branch of `ship_physics`: retract
`length` at rate 1024, then reset `sustained` and recharge `max_length`
toward the current level ceiling, capped there. -/
def beamIdleStep (c : BeamConsts) (level : Nat) (dt : ℚ) (s : BeamState) : BeamState :=
  if 0 < s.length then
    { s with length := max (s.length - dt * 1024) 0 }
  else
    { s with sustained := 0
             maxLength := min (s.maxLength + dt * c.rechargeRate) (beamCeiling c level) }

/-- Events touching an existing beam or the ship's beam weapon level:
the two `ship_physics` branches, a `Powerup::Beam` pickup
(`ship_powerup_collision_system`: `(level + 1).min(8)`), and `Ship::die`
(`weapon_beam_level.saturating_sub(1)`). -/
inductive BeamEvent
  | fire (dt : ℚ)
  | idle (dt : ℚ)
  | pickupBeam
  | shipDie
deriving DecidableEq, Repr

/-- Apply one `BeamEvent` to the pair (beam weapon level, beam state). -/
def beamEventStep (c : BeamConsts) : Nat × BeamState → BeamEvent → Nat × BeamState
  | (level, s), .fire dt => (level, beamFireStep c dt s)
  | (level, s), .idle dt => (level, beamIdleStep c level dt s)
  | (level, s), .pickupBeam => (min (level + 1) 8, s)
  | (level, s), .shipDie => (level - 1, s)

/-- Level and beam state after a sequence of events, starting from the
beam spawned at `level0`. -/
def beamRun (c : BeamConsts) (level0 : Nat) (events : List BeamEvent) : Nat × BeamState :=
  events.foldl (beamEventStep c) (level0, beamSpawn c level0)

/-- The time delta carried by an event (zero for the instantaneous ones);
used to state that frame deltas are nonnegative. -/
def BeamEvent.dt : BeamEvent → ℚ
  | .fire dt => dt
  | .idle dt => dt
  | .pickupBeam => 0
  | .shipDie => 0

/-- Track (current level, highest level seen) across one event; the level
evolves exactly as in `beamEventStep`. -/
def beamLevelTrack : Nat × Nat → BeamEvent → Nat × Nat
  | p, .pickupBeam => (min (p.1 + 1) 8, max p.2 (min (p.1 + 1) 8))
  | p, .shipDie => (p.1 - 1, p.2)
  | p, .fire _ => p
  | p, .idle _ => p

/-- Highest beam weapon level held at any point while running the events
(including the spawn level). -/
def beamMaxLevel (level0 : Nat) (events : List BeamEvent) : Nat :=
  (events.foldl beamLevelTrack (level0, level0)).2

/-- Modelled from the spec: a sample instantiation of the beam tuning
constants of the absent `src/constants.rs`, shaped as the spec requires
(a positive base length and a positive per-level step for the
level-scaled ceiling `base + per_level * level`). -/
def beamSampleConsts : BeamConsts :=
  { base := 100, perLevel := 50, extendTime := 1, retractRate := 1, rechargeRate := 1 }

/-! ### Collision geometry (C5, C6, C7, C8, C10)

`glam::Vec2` is embedded as `ℝ × ℝ` (the source's geometry takes square
roots, so exact `f32` arithmetic is embedded over `ℝ`; these definitions
are necessarily noncomputable).  The `unimplemented!()` arms of the shape
operations are embedded as `none`. -/

/-- `glam::Vec2` embedded over `ℝ`. -/
abbrev Vec2 : Type := ℝ × ℝ

/-- `Vec2::dot`. -/
noncomputable def dot (a b : Vec2) : ℝ := a.1 * b.1 + a.2 * b.2

/-- `Vec2::length_squared`. -/
noncomputable def lengthSq (v : Vec2) : ℝ := dot v v

/-- `Vec2::length`. -/
noncomputable def vlen (v : Vec2) : ℝ := Real.sqrt (lengthSq v)

/-- `Vec2::distance_squared`. -/
noncomputable def vdistSq (a b : Vec2) : ℝ := lengthSq (a - b)

/-- `Vec2::distance`. -/
noncomputable def vdist (a b : Vec2) : ℝ := vlen (a - b)

/-- `Vec2::normalize` (defined off the zero vector; glam would produce
non-finite components there, the spec calls the zero vector a guarded
sharp edge). -/
noncomputable def normalize (v : Vec2) : Vec2 := (1 / vlen v) • v

/-- `Vec2::perp`: rotate 90 degrees counterclockwise. -/
noncomputable def perp (v : Vec2) : Vec2 := (-v.2, v.1)

/-- `Vec2::perp_dot`. -/
noncomputable def perpDot (a b : Vec2) : ℝ := a.1 * b.2 - a.2 * b.1

/-- `Vec2::project_onto`: `other * (self.dot(other) / other.dot(other))`. -/
noncomputable def projectOnto (a b : Vec2) : Vec2 := (dot a b / dot b b) • b

/-- `Quat::from_rotation_z(θ)` applied to a 2D vector. -/
noncomputable def rotZ (θ : ℝ) (v : Vec2) : Vec2 :=
  (Real.cos θ * v.1 - Real.sin θ * v.2, Real.sin θ * v.1 + Real.cos θ * v.2)

/-- `Shape` from `src/components.rs`. -/
inductive Shape
  | Circle (center : Vec2) (radius : ℝ)
  | Line (base delta : Vec2) (width : ℝ)

open Classical in
/-- The circle–line arm of `Shape::intersects` from `src/components.rs`. -/
noncomputable def circleLineIntersects (center : Vec2) (radius : ℝ)
    (base delta : Vec2) (width : ℝ) : Prop :=
  let norm := normalize (perp delta)
  let a := center - base
  let b := center - base - delta
  if perpDot norm a * perpDot norm b < 0 then
    lengthSq (projectOnto a norm) < (radius + width) ^ 2
  else if lengthSq a < lengthSq b then
    lengthSq a ≤ (radius + width) ^ 2
  else
    lengthSq b ≤ (radius + width) ^ 2

/-- `Shape::intersects` from `src/components.rs`; the final
`unimplemented!()` arm (reached exactly by line–line pairs) is `none`. -/
noncomputable def Shape.intersects : Shape → Shape → Option Prop
  | .Circle c1 r1, .Circle c2 r2 => some (vdistSq c1 c2 ≤ (r1 + r2) ^ 2)
  | .Circle center radius, .Line base delta width =>
      some (circleLineIntersects center radius base delta width)
  | .Line base delta width, .Circle center radius =>
      some (circleLineIntersects center radius base delta width)
  | .Line _ _ _, .Line _ _ _ => none

/-- The circle–line arm of `Shape::distance` from `src/components.rs`
(projected-intercept construction). -/
noncomputable def circleLineDistance (center : Vec2) (radius : ℝ)
    (base delta : Vec2) (width : ℝ) : ℝ :=
  let l1q := projectOnto (center - base) delta
  let q := l1q + base
  let s2 := (radius + width) ^ 2 - lengthSq (center - q)
  let t := 1 - s2 / lengthSq l1q
  vlen (t • l1q)

/-- `Shape::distance` from `src/components.rs`; the `unimplemented!()`
arm is `none`. -/
noncomputable def Shape.distance : Shape → Shape → Option ℝ
  | .Circle c1 r1, .Circle c2 r2 => some (vdist c1 c2 - r1 - r2)
  | .Circle center radius, .Line base delta width =>
      some (circleLineDistance center radius base delta width)
  | .Line base delta width, .Circle center radius =>
      some (circleLineDistance center radius base delta width)
  | .Line _ _ _, .Line _ _ _ => none

/-- The circle–line arm of `Shape::collision_point`. -/
noncomputable def circleLineCollisionPoint (center : Vec2) (radius : ℝ)
    (base delta : Vec2) (width : ℝ) : Vec2 :=
  let l1q := projectOnto (center - base) delta
  let q := l1q + base
  let s2 := (radius + width) ^ 2 - lengthSq (center - q)
  let t := 1 - s2 / lengthSq l1q
  base + t • l1q

open Classical in
/-- `Shape::collision_point` from `src/components.rs`; the
`unimplemented!()` arm is `none`. -/
noncomputable def Shape.collisionPoint : Shape → Shape → Option Vec2
  | .Circle c1 r1, .Circle c2 r2 =>
      some (if r2 < r1 then c1 + r1 • normalize (c2 - c1)
            else c2 + r2 • normalize (c1 - c2))
  | .Circle center radius, .Line base delta width =>
      some (circleLineCollisionPoint center radius base delta width)
  | .Line base delta width, .Circle center radius =>
      some (circleLineCollisionPoint center radius base delta width)
  | .Line _ _ _, .Line _ _ _ => none

/-- The proposition tested when the source calls `Shape::intersects` on a
pair it is implemented for. -/
noncomputable def intersectsHolds (a b : Shape) : Prop := (Shape.intersects a b).getD False

/-! ### Asteroid pair resolution (C7): `asteroid_hit_system` in
`src/main.rs`. -/

open Classical in
/-- One pair of `asteroid_hit_system`: on intersection set the first
body's velocity to `direction * |v_a|` and the second to
`-direction * |v_b|`, with `direction = normalize(p_a - p_b)`. -/
noncomputable def asteroidPairStep (aShape bShape : Shape) (pa pb va vb : Vec2) :
    Vec2 × Vec2 :=
  if intersectsHolds aShape bShape then
    (vlen va • normalize (pa - pb), vlen vb • -normalize (pa - pb))
  else (va, vb)

/-- Separation of the two bodies after simulating a step of size `eps`
with the current velocities (used to state the spec's claimed
numerical-stability guard, which `asteroid_hit_system` does not have). -/
noncomputable def simulatedSeparation (pa pb va vb : Vec2) (eps : ℝ) : ℝ :=
  vdist (pa + eps • va) (pb + eps • vb)

/-! ### Ship–asteroid collision (C5): `ship_asteroid_collision_system`
in `src/main.rs`. -/

/-- The `Ship` fields this system touches.  `shield_level` and `lives`
are `u8` (embedded as `ℕ`), the timers are `f32`. -/
structure ShipCounters where
  shieldLevel : Nat
  lives : Nat
  respawnDelay : ℝ
  invulnerability : ℝ

open Classical in
/-- One ship–asteroid pair of `ship_asteroid_collision_system`.
`respawnDelayConst` stands for `SHIP_RESPAWN_DELAY` from the absent
`src/constants.rs`.  Returns the updated ship counters and ship
velocity. -/
noncomputable def shipAsteroidCollisionStep (respawnDelayConst : ℝ)
    (ship : ShipCounters) (shipPos shipVel astPos astVel : Vec2)
    (shipShape astShape : Shape) : ShipCounters × Vec2 :=
  if 0 < ship.invulnerability then (ship, shipVel)
  else if intersectsHolds shipShape astShape then
    if 0 < ship.shieldLevel then
      (⟨ship.shieldLevel - 1, ship.lives, ship.respawnDelay, ship.invulnerability⟩,
        vlen (projectOnto astVel (shipPos - astPos) - shipVel) • normalize (shipPos - astPos))
    else
      (⟨ship.shieldLevel, max ship.lives 1 - 1, respawnDelayConst, ship.invulnerability⟩,
        shipVel)
  else (ship, shipVel)

/-! ### Asteroid destruction and split (C6): `asteroid_split_system` and
`asteroid_score` in `src/main.rs`, `Level::asteroid_frag_count` in
`src/resources.rs`. -/

/-- One spawned fragment. -/
structure FragSpawn where
  size : AsteroidSize
  position : Vec2
  velocity : Vec2
  variant : Nat

/-- The alternating fragment directions of `asteroid_split_system`:
`[direction, -direction].into_iter().cycle().take(n)`. -/
noncomputable def fragDirections (d : Vec2) (n : Nat) : List Vec2 :=
  (List.range n).map (fun i => if i % 2 = 0 then d else -d)

/-- What `asteroid_split_system` does to one destroyed asteroid. -/
structure SplitResult where
  score : Nat
  /-- whether `commands.entity(asteroid_entity).despawn()` ran. -/
  despawned : Bool
  frags : List FragSpawn

open Classical in
/-- One asteroid of `asteroid_split_system`: `none` when `integrity > 0`
(the system does nothing), otherwise the score award, the despawn, and
the fragment spawns.  `rotation` is the z-angle of the transform; the
base direction is `(transform.rotation * transform.translation)`
truncated and normalized, exactly as in the source. -/
noncomputable def asteroidSplitStep (level : Nat) (size : AsteroidSize)
    (integrity : ℤ) (variant : Nat) (translation : Vec2) (rotation : ℝ) :
    Option SplitResult :=
  if integrity ≤ 0 then
    some { score := asteroidScore size
           despawned := true
           frags :=
             match size.smaller with
             | none => []
             | some sz =>
                 (fragDirections (normalize (rotZ rotation translation))
                     (asteroidFragCount level)).map
                   (fun dir => ⟨sz, translation, (30 : ℝ) • dir, variant⟩) }
  else none

/-- Follows the spec's words (for comparison with `fragDirections`):
`n` fragments arranged at evenly spaced angles around a base direction
are the rotations of the base direction by `2π·i/n`, `i < n`. -/
noncomputable def evenlySpacedDirections (d : Vec2) (n : Nat) : List Vec2 :=
  (List.range n).map (fun i => rotZ (2 * Real.pi * i / n) d)

/-! ## Theorems -/

/-- `AsteroidSize::cost` satisfies the source recurrence
`cost(Tiny) = 1`, `cost(s) = 2 * cost(s.smaller().unwrap())`. -/
lemma cost_eq_double_smaller :
    AsteroidSize.cost .Tiny = 1 ∧
      ∀ s t : AsteroidSize, s.smaller = some t → s.cost = 2 * t.cost := by
  refine ⟨rfl, ?_⟩
  intro s t h
  cases s <;> cases t <;> simp_all [AsteroidSize.smaller, AsteroidSize.cost]

lemma cost_pos (s : AsteroidSize) : 0 < s.cost := by
  cases s <;> decide

lemma asteroidSizes_ne_nil (level : Nat) : asteroidSizes level ≠ [] := by
  unfold asteroidSizes
  split_ifs <;> simp

lemma genTrace_map_size (sizes : List AsteroidSize) :
    ∀ budget idx, (genTrace sizes budget idx).map AllocEntry.size =
      genAsteroids sizes budget idx := by
  intro budget
  induction budget using Nat.strong_induction_on with
  | _ budget ih =>
    intro idx
    rw [genTrace, genAsteroids]
    split_ifs with h1 h2 h3
    · simp
    · have hc := cost_pos (sizes.getD (idx % sizes.length) .Tiny)
      simp only [List.map_cons]
      rw [ih _ (by omega)]
    · simp only [List.map_cons]
      rw [ih _ (by omega)]
    · simp

lemma genTrace_entry (sizes : List AsteroidSize) :
    ∀ budget idx, ∀ e ∈ genTrace sizes budget idx,
      (e.size.cost ≤ e.before ∧ (e.after : ℤ) = (e.before : ℤ) - (e.size.cost : ℤ)) ∨
        (e.size = .Tiny ∧ 0 < e.before ∧ (e.after : ℤ) = (e.before : ℤ) - 1) := by
  intro budget
  induction budget using Nat.strong_induction_on with
  | _ budget ih =>
    intro idx e he
    rw [genTrace] at he
    split_ifs at he with h1 h2 h3
    · simp at he
    · have hc := cost_pos (sizes.getD (idx % sizes.length) .Tiny)
      rcases List.mem_cons.mp he with rfl | hmem
      · left
        dsimp only
        exact ⟨h2, by omega⟩
      · exact ih _ (by omega) _ _ hmem
    · rcases List.mem_cons.mp he with rfl | hmem
      · right
        dsimp only
        exact ⟨rfl, h3, by omega⟩
      · exact ih _ (by omega) _ _ hmem
    · simp at he

lemma genTrace_after_nonneg (sizes : List AsteroidSize) (budget idx : Nat)
    (e : AllocEntry) (_he : e ∈ genTrace sizes budget idx) : (0 : ℤ) ≤ (e.after : ℤ) := by
  exact_mod_cast Int.ofNat_nonneg e.after

lemma genTrace_head (sizes : List AsteroidSize) :
    ∀ budget idx e, (genTrace sizes budget idx).head? = some e → e.before = budget := by
  intro budget idx e h
  rw [genTrace] at h
  split_ifs at h with h1 h2 h3
  · exact Option.noConfusion h
  · simp only [List.head?_cons, Option.some.injEq] at h
    exact h ▸ rfl
  · simp only [List.head?_cons, Option.some.injEq] at h
    exact h ▸ rfl
  · exact Option.noConfusion h

lemma genTrace_chain (sizes : List AsteroidSize) :
    ∀ budget idx, List.Chain' (fun e1 e2 => e2.before = e1.after)
      (genTrace sizes budget idx) := by
  intro budget
  induction budget using Nat.strong_induction_on with
  | _ budget ih =>
    intro idx
    rw [genTrace]
    split_ifs with h1 h2 h3
    · exact List.chain'_nil
    · have hc := cost_pos (sizes.getD (idx % sizes.length) .Tiny)
      refine List.chain'_cons'.mpr ⟨?_, ih _ (by omega) _⟩
      intro e2 h2'
      have hhead := genTrace_head sizes _ _ _ h2'
      simpa using hhead
    · refine List.chain'_cons'.mpr ⟨?_, ih _ (by omega) _⟩
      intro e2 h2'
      have hhead := genTrace_head sizes _ _ _ h2'
      simpa using hhead
    · exact List.chain'_nil

lemma genTrace_eq_nil_iff (sizes : List AsteroidSize) (hs : sizes ≠ [])
    (budget idx : Nat) : genTrace sizes budget idx = [] ↔ budget = 0 := by
  rw [genTrace]
  have h1 : sizes.isEmpty = false := by simpa using hs
  have hc := cost_pos (sizes.getD (idx % sizes.length) .Tiny)
  split_ifs with ha hb hd <;> simp_all <;> omega

lemma finalBudget_eq_zero (sizes : List AsteroidSize) (hs : sizes ≠ []) :
    ∀ budget idx, finalBudget sizes budget idx = 0 := by
  intro budget
  induction budget using Nat.strong_induction_on with
  | _ budget ih =>
    intro idx
    unfold finalBudget
    rw [genTrace]
    have h1 : sizes.isEmpty = false := by simpa using hs
    have hc := cost_pos (sizes.getD (idx % sizes.length) .Tiny)
    split_ifs with h0 hb hd
    · exact absurd h0 (by simpa using hs)
    · simp only [List.foldl_cons]
      exact ih _ (by omega) (idx + 1)
    · simp only [List.foldl_cons]
      exact ih _ (by omega) (idx + 1)
    · simp only [List.foldl_nil]
      omega

/-- C1: for every level number, the asteroid population generator keeps
its remaining budget nonnegative, starting from
`(level mod 20 + 2) * cost(Large)`: a size subtracts its full cost only
when the budget covers it, the 1-subtracting `Tiny` fallback fires only
when the remaining budget is strictly positive, and emission stops
exactly when the budget reaches 0 (the final budget is exactly 0). -/
theorem asteroid_budget_invariant (level : Nat) :
    (genTrace (asteroidSizes level) (levelBudget level) 0).map AllocEntry.size =
        levelAsteroids level ∧
      (∀ e ∈ genTrace (asteroidSizes level) (levelBudget level) 0,
        (0 : ℤ) ≤ (e.after : ℤ) ∧
          ((e.size.cost ≤ e.before ∧
              (e.after : ℤ) = (e.before : ℤ) - (e.size.cost : ℤ)) ∨
            (e.size = .Tiny ∧ 0 < e.before ∧
              (e.after : ℤ) = (e.before : ℤ) - 1))) ∧
      List.Chain' (fun e1 e2 => e2.before = e1.after)
        (genTrace (asteroidSizes level) (levelBudget level) 0) ∧
      (∀ e, (genTrace (asteroidSizes level) (levelBudget level) 0).head? = some e →
        e.before = levelBudget level) ∧
      (∀ budget idx, genTrace (asteroidSizes level) budget idx = [] ↔ budget = 0) ∧
      finalBudget (asteroidSizes level) (levelBudget level) 0 = 0 := by
  have hs := asteroidSizes_ne_nil level
  refine ⟨genTrace_map_size _ _ _, ?_, genTrace_chain _ _ _, ?_, ?_, ?_⟩
  · intro e he
    exact ⟨genTrace_after_nonneg _ _ _ _ he, genTrace_entry _ _ _ _ he⟩
  · intro e he
    exact genTrace_head _ _ _ _ he
  · intro budget idx
    exact genTrace_eq_nil_iff _ hs _ _
  · exact finalBudget_eq_zero _ hs _ _

/-- C3: at level counter 0 the allowed sizes are exactly `[Large]`, the
budget is `2 * cost(Large)`, and the generator emits exactly two `Large`
asteroids and nothing else. -/
theorem level_zero_two_large :
    asteroidSizes 0 = [.Large] ∧
      levelBudget 0 = 2 * AsteroidSize.cost .Large ∧
      levelAsteroids 0 = [.Large, .Large] := by
  refine ⟨by decide, by decide, ?_⟩
  show genAsteroids [.Large] 16 0 = [.Large, .Large]
  rw [genAsteroids]
  norm_num [AsteroidSize.cost]
  rw [genAsteroids]
  norm_num [AsteroidSize.cost]
  rw [genAsteroids]
  norm_num [AsteroidSize.cost]

/-- C2: a plasma projectile's stored power is never increased by a hit
(the hit systems bind `mut power` by copy and never write the component
back, so it is in fact constant across any sequence of hits), and the
despawn happens exactly when the power left after subtracting the hit's
effect is ≤ 0 — never while that power is still positive. -/
theorem plasma_power_monotone_despawn (power dist : ℚ) (integrity : ℤ)
    (hits : List (ℚ × ℤ)) :
    (plasmaHitStep power dist integrity).storedPower = power ∧
      plasmaStoredAfter power hits = power ∧
      (plasmaHitStep power dist integrity).localPower =
        power - (plasmaHitStep power dist integrity).effect ∧
      ((plasmaHitStep power dist integrity).despawned = true ↔
        (plasmaHitStep power dist integrity).localPower ≤ 0) ∧
      (0 < (plasmaHitStep power dist integrity).localPower →
        (plasmaHitStep power dist integrity).despawned = false) := by
  refine ⟨rfl, ?_, rfl, ?_, ?_⟩
  · induction hits with
    | nil => rfl
    | cons h t ih => simp [plasmaStoredAfter, plasmaHitStep]
  · simp [plasmaHitStep]
  · intro hpos
    simp only [plasmaHitStep, decide_eq_false_iff_not, not_le]
    simp only [plasmaHitStep] at hpos
    exact hpos

/-- C9: the lives/weapon-level decrements of `Ship::die`, of the
`LoseLife` powerup and of the shieldless ship–asteroid collision never
take a counter below 0 (and hence never underflow `u8`), for every
starting value, including 0. -/
theorem counter_decrements_never_negative (lives rapid spread beam plasma : ℤ) :
    0 ≤ (shipDieCounters lives rapid spread beam plasma).lives ∧
      0 ≤ (shipDieCounters lives rapid spread beam plasma).weaponRapidLevel ∧
      0 ≤ (shipDieCounters lives rapid spread beam plasma).weaponSpreadLevel ∧
      0 ≤ (shipDieCounters lives rapid spread beam plasma).weaponBeamLevel ∧
      0 ≤ (shipDieCounters lives rapid spread beam plasma).weaponPlasmaLevel ∧
      0 ≤ (shipDieCounters lives rapid spread beam plasma).shieldLevel ∧
      0 ≤ loseLifeLives lives ∧
      0 ≤ collisionDeathLives lives := by
  simp only [shipDieCounters, u8SaturatingSub, loseLifeLives, collisionDeathLives]
  omega

/-! Geometry helper lemmas. -/

lemma vdistSq_comm (a b : Vec2) : vdistSq a b = vdistSq b a := by
  unfold vdistSq lengthSq dot
  simp only [Prod.fst_sub, Prod.snd_sub]
  ring

lemma vdist_comm (a b : Vec2) : vdist a b = vdist b a :=
  congrArg Real.sqrt (vdistSq_comm a b)

lemma lengthSq_nonneg (v : Vec2) : 0 ≤ lengthSq v := by
  unfold lengthSq dot
  nlinarith [sq_nonneg v.1, sq_nonneg v.2]

lemma lengthSq_pos (v : Vec2) (hv : v ≠ 0) : 0 < lengthSq v := by
  have h : v.1 ≠ 0 ∨ v.2 ≠ 0 := by
    by_contra h
    push_neg at h
    exact hv (Prod.ext h.1 h.2)
  unfold lengthSq dot
  rcases h with h | h
  · nlinarith [mul_self_pos.mpr h, mul_self_nonneg v.2]
  · nlinarith [mul_self_pos.mpr h, mul_self_nonneg v.1]

lemma vlen_nonneg (v : Vec2) : 0 ≤ vlen v := Real.sqrt_nonneg _

lemma vlen_pos (v : Vec2) (hv : v ≠ 0) : 0 < vlen v :=
  Real.sqrt_pos.mpr (lengthSq_pos v hv)

lemma lengthSq_smul (k : ℝ) (v : Vec2) : lengthSq (k • v) = k ^ 2 * lengthSq v := by
  unfold lengthSq dot
  simp only [Prod.smul_fst, Prod.smul_snd, smul_eq_mul]
  ring

lemma vlen_smul (k : ℝ) (v : Vec2) : vlen (k • v) = |k| * vlen v := by
  unfold vlen
  rw [lengthSq_smul, Real.sqrt_mul (sq_nonneg k), Real.sqrt_sq_eq_abs]

lemma lengthSq_neg (v : Vec2) : lengthSq (-v) = lengthSq v := by
  unfold lengthSq dot
  simp only [Prod.fst_neg, Prod.snd_neg]
  ring

lemma vlen_neg (v : Vec2) : vlen (-v) = vlen v :=
  congrArg Real.sqrt (lengthSq_neg v)

lemma vlen_normalize (v : Vec2) (hv : v ≠ 0) : vlen (normalize v) = 1 := by
  unfold normalize
  rw [vlen_smul]
  have h := vlen_pos v hv
  rw [abs_of_pos (by positivity)]
  field_simp

/-- C8: `Shape::intersects` and `Shape::distance` are symmetric on every
pair of circle shapes. -/
theorem circle_intersects_distance_symmetric (c1 c2 : Vec2) (r1 r2 : ℝ) :
    Shape.intersects (.Circle c1 r1) (.Circle c2 r2) =
        Shape.intersects (.Circle c2 r2) (.Circle c1 r1) ∧
      Shape.distance (.Circle c1 r1) (.Circle c2 r2) =
        Shape.distance (.Circle c2 r2) (.Circle c1 r1) := by
  constructor
  · simp only [Shape.intersects, Option.some.injEq]
    rw [vdistSq_comm, add_comm r1 r2]
  · simp only [Shape.distance, Option.some.injEq]
    rw [vdist_comm]
    ring

/-- C10: the shape operations `intersects`, `distance` and
`collision_point` are defined (return a value) for circle–circle and
circle–line pairs in both orders, but for every line–line pair they hit
the `unimplemented!()` arm (embedded as `none`). -/
theorem shape_ops_line_line_unimplemented :
    (∀ b1 d1 b2 d2 : Vec2, ∀ w1 w2 : ℝ,
        Shape.intersects (.Line b1 d1 w1) (.Line b2 d2 w2) = none ∧
          Shape.distance (.Line b1 d1 w1) (.Line b2 d2 w2) = none ∧
          Shape.collisionPoint (.Line b1 d1 w1) (.Line b2 d2 w2) = none) ∧
      (∀ c1 c2 : Vec2, ∀ r1 r2 : ℝ,
        (Shape.intersects (.Circle c1 r1) (.Circle c2 r2)).isSome = true ∧
          (Shape.distance (.Circle c1 r1) (.Circle c2 r2)).isSome = true ∧
          (Shape.collisionPoint (.Circle c1 r1) (.Circle c2 r2)).isSome = true) ∧
      (∀ c b d : Vec2, ∀ r w : ℝ,
        (Shape.intersects (.Circle c r) (.Line b d w)).isSome = true ∧
          (Shape.intersects (.Line b d w) (.Circle c r)).isSome = true ∧
          (Shape.distance (.Circle c r) (.Line b d w)).isSome = true ∧
          (Shape.distance (.Line b d w) (.Circle c r)).isSome = true ∧
          (Shape.collisionPoint (.Circle c r) (.Line b d w)).isSome = true ∧
          (Shape.collisionPoint (.Line b d w) (.Circle c r)).isSome = true) := by
  refine ⟨?_, ?_, ?_⟩ <;> intros <;>
    simp [Shape.intersects, Shape.distance, Shape.collisionPoint]

/-- C7 (amended): `asteroid_hit_system` resolves every intersecting
asteroid pair — there is no separation-increase guard — setting each
body's velocity along the direction between the centers
(`normalize(p_a - p_b)` for the first body, its negation for the second)
with each body's speed magnitude preserved. -/
theorem asteroid_pair_velocity_reflection (aS bS : Shape) (pa pb va vb : Vec2)
    (hint : intersectsHolds aS bS) (hne : pa - pb ≠ 0) :
    (asteroidPairStep aS bS pa pb va vb).1 = vlen va • normalize (pa - pb) ∧
      (asteroidPairStep aS bS pa pb va vb).2 = vlen vb • -normalize (pa - pb) ∧
      vlen (asteroidPairStep aS bS pa pb va vb).1 = vlen va ∧
      vlen (asteroidPairStep aS bS pa pb va vb).2 = vlen vb ∧
      (∃ k : ℝ, 0 ≤ k ∧ (asteroidPairStep aS bS pa pb va vb).1 = k • (pa - pb)) ∧
      (∃ k : ℝ, 0 ≤ k ∧ (asteroidPairStep aS bS pa pb va vb).2 = k • (pb - pa)) := by
  unfold asteroidPairStep
  rw [if_pos hint]
  have hk : 0 ≤ vlen va * (1 / vlen (pa - pb)) :=
    mul_nonneg (vlen_nonneg va) (one_div_nonneg.mpr (vlen_nonneg _))
  have hk2 : 0 ≤ vlen vb * (1 / vlen (pa - pb)) :=
    mul_nonneg (vlen_nonneg vb) (one_div_nonneg.mpr (vlen_nonneg _))
  refine ⟨rfl, rfl, ?_, ?_, ?_, ?_⟩
  · rw [vlen_smul, vlen_normalize _ hne, mul_one, abs_of_nonneg (vlen_nonneg va)]
  · rw [vlen_smul, vlen_neg, vlen_normalize _ hne, mul_one,
      abs_of_nonneg (vlen_nonneg vb)]
  · exact ⟨vlen va * (1 / vlen (pa - pb)), hk, by rw [normalize, smul_smul]⟩
  · refine ⟨vlen vb * (1 / vlen (pa - pb)), hk2, ?_⟩
    show vlen vb • -normalize (pa - pb) = _
    rw [normalize, ← smul_neg, neg_sub, smul_smul]

/-- C7 witness: the reflection theorem applied to a concrete intersecting
pair. -/
theorem asteroid_pair_velocity_reflection_witness :
    intersectsHolds (.Circle ((0 : ℝ), (0 : ℝ)) 10) (.Circle ((1 : ℝ), (0 : ℝ)) 10) ∧
      (((0 : ℝ), (0 : ℝ)) : Vec2) - ((1 : ℝ), (0 : ℝ)) ≠ 0 ∧
      vlen ((asteroidPairStep (.Circle ((0 : ℝ), (0 : ℝ)) 10)
          (.Circle ((1 : ℝ), (0 : ℝ)) 10) ((0 : ℝ), (0 : ℝ)) ((1 : ℝ), (0 : ℝ))
          ((0 : ℝ), (1 : ℝ)) ((1 : ℝ), (0 : ℝ))).1) = vlen (((0 : ℝ), (1 : ℝ)) : Vec2) := by
  have hint : intersectsHolds (.Circle ((0 : ℝ), (0 : ℝ)) 10)
      (.Circle ((1 : ℝ), (0 : ℝ)) 10) := by
    simp only [intersectsHolds, Shape.intersects, Option.getD_some, vdistSq, lengthSq,
      dot, Prod.mk_sub_mk]
    norm_num
  have hne : (((0 : ℝ), (0 : ℝ)) : Vec2) - ((1 : ℝ), (0 : ℝ)) ≠ 0 := by
    simp only [Prod.mk_sub_mk, ne_eq, Prod.mk_eq_zero]
    norm_num
  exact ⟨hint, hne,
    (asteroid_pair_velocity_reflection _ _ _ _ _ _ hint hne).2.2.1⟩

/-- C7 counterexample: the claimed numerical-stability guard does not
exist.  For this concrete intersecting pair the separation strictly
increases under a simulated step of every positive size, yet
`asteroid_hit_system` still rewrites the first body's velocity. -/
theorem asteroid_pair_guard_missing_cex :
    vdist (((0 : ℝ), (0 : ℝ)) : Vec2) ((1 : ℝ), (0 : ℝ)) <
        simulatedSeparation ((0 : ℝ), (0 : ℝ)) ((1 : ℝ), (0 : ℝ))
          ((0 : ℝ), (1 : ℝ)) ((1 : ℝ), (0 : ℝ)) (1 / 100) ∧
      (asteroidPairStep (.Circle ((0 : ℝ), (0 : ℝ)) 10) (.Circle ((1 : ℝ), (0 : ℝ)) 10)
          ((0 : ℝ), (0 : ℝ)) ((1 : ℝ), (0 : ℝ)) ((0 : ℝ), (1 : ℝ)) ((1 : ℝ), (0 : ℝ))).1
        ≠ ((0 : ℝ), (1 : ℝ)) := by
  constructor
  · unfold simulatedSeparation vdist vlen
    simp only [Prod.smul_mk, smul_eq_mul, Prod.mk_add_mk, Prod.mk_sub_mk, vdistSq,
      lengthSq, dot]
    rw [show ((0 : ℝ) - 1) * ((0 : ℝ) - 1) + ((0 : ℝ) - 0) * ((0 : ℝ) - 0) = 1 by ring]
    apply Real.sqrt_lt_sqrt (by norm_num)
    nlinarith
  · have hint : intersectsHolds (.Circle ((0 : ℝ), (0 : ℝ)) 10)
        (.Circle ((1 : ℝ), (0 : ℝ)) 10) := by
      simp only [intersectsHolds, Shape.intersects, Option.getD_some, vdistSq, lengthSq,
        dot, Prod.mk_sub_mk]
      norm_num
    unfold asteroidPairStep
    rw [if_pos hint]
    have hsub : (((0 : ℝ), (0 : ℝ)) : Vec2) - ((1 : ℝ), (0 : ℝ)) = ((-1 : ℝ), (0 : ℝ)) := by
      simp only [Prod.mk_sub_mk]
      norm_num
    have hlen1 : vlen (((0 : ℝ), (1 : ℝ)) : Vec2) = 1 := by
      unfold vlen lengthSq dot
      norm_num
    have hlenm : vlen (((-1 : ℝ), (0 : ℝ)) : Vec2) = 1 := by
      unfold vlen lengthSq dot
      norm_num
    rw [hsub, hlen1]
    unfold normalize
    rw [hlenm]
    simp only [one_smul, Prod.smul_mk, smul_eq_mul, ne_eq, Prod.mk.injEq]
    norm_num

/-- C5: a non-invulnerable ship with `shield_level = 1` hitting an
asteroid loses the shield but survives — lives and respawn timer
untouched, velocity set to a nonnegative multiple of the direction away
from the asteroid — and a second identical collision (shield now 0)
triggers the death handling: lives decrease by 1 and the respawn timer
is set to `SHIP_RESPAWN_DELAY`. -/
theorem shield_absorbs_then_death (rd : ℝ) (ship : ShipCounters)
    (shipPos shipVel astPos astVel : Vec2) (shipShape astShape : Shape)
    (hinv : ¬ 0 < ship.invulnerability)
    (hint : intersectsHolds shipShape astShape)
    (hshield : ship.shieldLevel = 1)
    (hlives : 1 ≤ ship.lives) :
    (shipAsteroidCollisionStep rd ship shipPos shipVel astPos astVel
        shipShape astShape).1.shieldLevel = 0 ∧
      (shipAsteroidCollisionStep rd ship shipPos shipVel astPos astVel
        shipShape astShape).1.lives = ship.lives ∧
      (shipAsteroidCollisionStep rd ship shipPos shipVel astPos astVel
        shipShape astShape).1.respawnDelay = ship.respawnDelay ∧
      (∃ k : ℝ, 0 ≤ k ∧
        (shipAsteroidCollisionStep rd ship shipPos shipVel astPos astVel
          shipShape astShape).2 = k • (shipPos - astPos)) ∧
      (shipAsteroidCollisionStep rd
          (shipAsteroidCollisionStep rd ship shipPos shipVel astPos astVel
            shipShape astShape).1
          shipPos
          (shipAsteroidCollisionStep rd ship shipPos shipVel astPos astVel
            shipShape astShape).2
          astPos astVel shipShape astShape).1.lives = ship.lives - 1 ∧
      (shipAsteroidCollisionStep rd
          (shipAsteroidCollisionStep rd ship shipPos shipVel astPos astVel
            shipShape astShape).1
          shipPos
          (shipAsteroidCollisionStep rd ship shipPos shipVel astPos astVel
            shipShape astShape).2
          astPos astVel shipShape astShape).1.respawnDelay = rd := by
  have hA : shipAsteroidCollisionStep rd ship shipPos shipVel astPos astVel
      shipShape astShape =
      (⟨ship.shieldLevel - 1, ship.lives, ship.respawnDelay, ship.invulnerability⟩,
        vlen (projectOnto astVel (shipPos - astPos) - shipVel) •
          normalize (shipPos - astPos)) := by
    unfold shipAsteroidCollisionStep
    rw [if_neg hinv, if_pos hint, if_pos (by omega : 0 < ship.shieldLevel)]
  have hB : shipAsteroidCollisionStep rd
      (⟨ship.shieldLevel - 1, ship.lives, ship.respawnDelay, ship.invulnerability⟩ :
        ShipCounters)
      shipPos
      (vlen (projectOnto astVel (shipPos - astPos) - shipVel) •
        normalize (shipPos - astPos))
      astPos astVel shipShape astShape =
      (⟨ship.shieldLevel - 1, max ship.lives 1 - 1, rd, ship.invulnerability⟩,
        vlen (projectOnto astVel (shipPos - astPos) - shipVel) •
          normalize (shipPos - astPos)) := by
    unfold shipAsteroidCollisionStep
    rw [if_neg hinv, if_pos hint, if_neg (by omega : ¬ 0 < ship.shieldLevel - 1)]
  rw [hA]
  dsimp only
  rw [hB]
  refine ⟨by omega, rfl, rfl, ?_, by dsimp only; omega, rfl⟩
  refine ⟨vlen (projectOnto astVel (shipPos - astPos) - shipVel) *
    (1 / vlen (shipPos - astPos)), ?_, ?_⟩
  · exact mul_nonneg (vlen_nonneg _) (one_div_nonneg.mpr (vlen_nonneg _))
  · rw [normalize, smul_smul]

/-- C5 witness: the shield-then-death theorem applied to a concrete
non-invulnerable ship with one shield charge and an overlapping
asteroid. -/
theorem shield_absorbs_then_death_witness :
    ¬ 0 < (⟨1, 3, 0, 0⟩ : ShipCounters).invulnerability ∧
      intersectsHolds (.Circle ((0 : ℝ), (0 : ℝ)) 16) (.Circle ((-1 : ℝ), (0 : ℝ)) 24) ∧
      (⟨1, 3, 0, 0⟩ : ShipCounters).shieldLevel = 1 ∧
      1 ≤ (⟨1, 3, 0, 0⟩ : ShipCounters).lives ∧
      (shipAsteroidCollisionStep 3
          (shipAsteroidCollisionStep 3 ⟨1, 3, 0, 0⟩ ((0 : ℝ), (0 : ℝ)) ((0 : ℝ), (0 : ℝ))
            ((-1 : ℝ), (0 : ℝ)) ((1 : ℝ), (0 : ℝ))
            (.Circle ((0 : ℝ), (0 : ℝ)) 16) (.Circle ((-1 : ℝ), (0 : ℝ)) 24)).1
          ((0 : ℝ), (0 : ℝ))
          (shipAsteroidCollisionStep 3 ⟨1, 3, 0, 0⟩ ((0 : ℝ), (0 : ℝ)) ((0 : ℝ), (0 : ℝ))
            ((-1 : ℝ), (0 : ℝ)) ((1 : ℝ), (0 : ℝ))
            (.Circle ((0 : ℝ), (0 : ℝ)) 16) (.Circle ((-1 : ℝ), (0 : ℝ)) 24)).2
          ((-1 : ℝ), (0 : ℝ)) ((1 : ℝ), (0 : ℝ))
          (.Circle ((0 : ℝ), (0 : ℝ)) 16) (.Circle ((-1 : ℝ), (0 : ℝ)) 24)).1.lives =
        (⟨1, 3, 0, 0⟩ : ShipCounters).lives - 1 := by
  have hinv : ¬ 0 < (⟨1, 3, 0, 0⟩ : ShipCounters).invulnerability := by norm_num
  have hint : intersectsHolds (.Circle ((0 : ℝ), (0 : ℝ)) 16)
      (.Circle ((-1 : ℝ), (0 : ℝ)) 24) := by
    simp only [intersectsHolds, Shape.intersects, Option.getD_some, vdistSq, lengthSq,
      dot, Prod.mk_sub_mk]
    norm_num
  refine ⟨hinv, hint, rfl, by norm_num, ?_⟩
  exact (shield_absorbs_then_death 3 ⟨1, 3, 0, 0⟩ ((0 : ℝ), (0 : ℝ)) ((0 : ℝ), (0 : ℝ))
    ((-1 : ℝ), (0 : ℝ)) ((1 : ℝ), (0 : ℝ)) (.Circle ((0 : ℝ), (0 : ℝ)) 16)
    (.Circle ((-1 : ℝ), (0 : ℝ)) 24) hinv hint rfl (by norm_num)).2.2.2.2.1

/-- C6 (amended): for an asteroid with integrity ≤ 0 the destruction pass
awards exactly the fixed per-size score (Tiny 50, Small 100, Medium 150,
Large 200), despawns the body, and — when the size has a smaller step —
spawns exactly frag-count fragments, each one size smaller with the
parent's cosmetic variant, whose velocities have magnitude 30 along
directions that **alternate between a base direction and its opposite**
(the source cycles `[direction, -direction]`, it does not space the
angles evenly). -/
theorem asteroid_split_award (level : Nat) (size : AsteroidSize) (integrity : ℤ)
    (variant : Nat) (translation : Vec2) (rotation : ℝ) (hi : integrity ≤ 0) :
    ∃ r : SplitResult,
      asteroidSplitStep level size integrity variant translation rotation = some r ∧
      r.score = asteroidScore size ∧
      (size = .Tiny → r.score = 50) ∧
      (size = .Small → r.score = 100) ∧
      (size = .Medium → r.score = 150) ∧
      (size = .Large → r.score = 200) ∧
      r.despawned = true ∧
      (size.smaller = none → r.frags = []) ∧
      (∀ sz, size.smaller = some sz →
        r.frags.length = asteroidFragCount level ∧
        ∀ i (h : i < r.frags.length),
          (r.frags.get ⟨i, h⟩).size = sz ∧
          (r.frags.get ⟨i, h⟩).position = translation ∧
          (r.frags.get ⟨i, h⟩).variant = variant ∧
          (r.frags.get ⟨i, h⟩).velocity = (30 : ℝ) •
            (if i % 2 = 0 then normalize (rotZ rotation translation)
             else -normalize (rotZ rotation translation))) := by
  refine ⟨_, by rw [asteroidSplitStep, if_pos hi], rfl, ?_, ?_, ?_, ?_, rfl, ?_, ?_⟩
  · intro h; subst h; rfl
  · intro h; subst h; rfl
  · intro h; subst h; rfl
  · intro h; subst h; rfl
  · intro h
    dsimp only
    rw [h]
  · intro sz h
    dsimp only
    rw [h]
    constructor
    · simp [fragDirections]
    · intro i hlen
      have hlen2 : i < (fragDirections (normalize (rotZ rotation translation))
          (asteroidFragCount level)).length := by
        simpa using hlen
      rw [List.get_map]
      refine ⟨rfl, rfl, rfl, ?_⟩
      dsimp only
      congr 1
      unfold fragDirections
      rw [List.get_map]
      congr 1
      simp [List.get_range]

/-- C6 witness: the split theorem applied to a destroyed Large asteroid. -/
theorem asteroid_split_award_witness :
    (0 : ℤ) ≤ 0 ∧
      ∃ r : SplitResult,
        asteroidSplitStep 0 .Large 0 3 ((1 : ℝ), (0 : ℝ)) 0 = some r ∧
          r.score = asteroidScore .Large ∧
          (AsteroidSize.Large = .Tiny → r.score = 50) ∧
          (AsteroidSize.Large = .Small → r.score = 100) ∧
          (AsteroidSize.Large = .Medium → r.score = 150) ∧
          (AsteroidSize.Large = .Large → r.score = 200) ∧
          r.despawned = true ∧
          (AsteroidSize.Large.smaller = none → r.frags = []) ∧
          (∀ sz, AsteroidSize.Large.smaller = some sz →
            r.frags.length = asteroidFragCount 0 ∧
            ∀ i (h : i < r.frags.length),
              (r.frags.get ⟨i, h⟩).size = sz ∧
              (r.frags.get ⟨i, h⟩).position = ((1 : ℝ), (0 : ℝ)) ∧
              (r.frags.get ⟨i, h⟩).variant = 3 ∧
              (r.frags.get ⟨i, h⟩).velocity = (30 : ℝ) •
                (if i % 2 = 0 then normalize (rotZ 0 ((1 : ℝ), (0 : ℝ)))
                 else -normalize (rotZ 0 ((1 : ℝ), (0 : ℝ))))) :=
  ⟨le_refl 0, asteroid_split_award 0 .Large 0 3 ((1 : ℝ), (0 : ℝ)) 0 (le_refl 0)⟩

/-- C6 counterexample: with three fragments (frag count at level 20) the
source's directions cycle `[d, -d]` and are **not** three evenly spaced
angles around the base direction `d = (1,0)` (the third code direction
repeats `d`, while the third evenly spaced direction is the rotation of
`d` by `4π/3`, whose first coordinate is `cos(4π/3) = -1/2 ≠ 1`). -/
theorem asteroid_split_not_evenly_spaced_cex :
    asteroidFragCount 20 = 3 ∧
      fragDirections (((1 : ℝ), (0 : ℝ))) 3 ≠
        evenlySpacedDirections ((1 : ℝ), (0 : ℝ)) 3 := by
  refine ⟨rfl, ?_⟩
  intro h
  have hL : fragDirections (((1 : ℝ), (0 : ℝ))) 3 =
      [((1 : ℝ), (0 : ℝ)), -(((1 : ℝ), (0 : ℝ)) : Vec2), ((1 : ℝ), (0 : ℝ))] := rfl
  have hR : evenlySpacedDirections ((1 : ℝ), (0 : ℝ)) 3 =
      [rotZ (2 * Real.pi * ((0 : ℕ) : ℝ) / ((3 : ℕ) : ℝ)) ((1 : ℝ), (0 : ℝ)),
        rotZ (2 * Real.pi * ((1 : ℕ) : ℝ) / ((3 : ℕ) : ℝ)) ((1 : ℝ), (0 : ℝ)),
        rotZ (2 * Real.pi * ((2 : ℕ) : ℝ) / ((3 : ℕ) : ℝ)) ((1 : ℝ), (0 : ℝ))] := rfl
  rw [hL, hR] at h
  injection h with ha h'
  injection h' with hb h''
  injection h'' with h3 hnil
  have hθ : 2 * Real.pi * ((2 : ℕ) : ℝ) / ((3 : ℕ) : ℝ) = Real.pi / 3 + Real.pi := by
    push_cast
    ring
  rw [hθ] at h3
  have h1 : (1 : ℝ) = Real.cos (Real.pi / 3 + Real.pi) := by
    have hfst := congrArg Prod.fst h3
    simpa [rotZ] using hfst
  rw [Real.cos_add, Real.cos_pi, Real.sin_pi, Real.cos_pi_div_three] at h1
  norm_num at h1

/-! C4 helper lemmas. -/

lemma beamCeiling_nonneg (c : BeamConsts) (hb : 0 ≤ c.base) (hp : 0 ≤ c.perLevel)
    (L : Nat) : 0 ≤ beamCeiling c L :=
  add_nonneg hb (mul_nonneg hp (by exact_mod_cast Nat.cast_nonneg L))

lemma beamCeiling_mono (c : BeamConsts) (hp : 0 ≤ c.perLevel) {L1 L2 : Nat}
    (h : L1 ≤ L2) : beamCeiling c L1 ≤ beamCeiling c L2 :=
  add_le_add_left (mul_le_mul_of_nonneg_left (by exact_mod_cast h) hp) c.base

lemma beamFireStep_maxLength_le (c : BeamConsts) (hr : 0 ≤ c.retractRate)
    (dt : ℚ) (hdt : 0 ≤ dt) (s : BeamState) (bound : ℚ) (hbound : 0 ≤ bound)
    (h : s.maxLength ≤ bound) : (beamFireStep c dt s).maxLength ≤ bound := by
  unfold beamFireStep
  have hsub : 0 ≤ dt * c.retractRate := mul_nonneg hdt hr
  dsimp only
  by_cases hA : c.extendTime < s.sustained + dt
  · rw [if_pos hA]
    dsimp only
    by_cases hB : s.cooldown ≤ 0
    · rw [if_pos hB]
      exact max_le (by linarith) hbound
    · rw [if_neg hB]
      exact max_le (by linarith) hbound
  · rw [if_neg hA]
    dsimp only
    by_cases hB : s.cooldown ≤ 0
    · rw [if_pos hB]
      exact h
    · rw [if_neg hB]
      exact h

lemma beamIdleStep_maxLength_le (c : BeamConsts) (hp : 0 ≤ c.perLevel)
    (level : Nat) (dt : ℚ) (s : BeamState) (L : Nat) (hlev : level ≤ L)
    (h : s.maxLength ≤ beamCeiling c L) :
    (beamIdleStep c level dt s).maxLength ≤ beamCeiling c L := by
  unfold beamIdleStep
  split_ifs <;> dsimp only
  · exact h
  · exact le_trans (min_le_right _ _) (beamCeiling_mono c hp hlev)

lemma beam_invariant_aux (c : BeamConsts) (hb : 0 ≤ c.base) (hp : 0 ≤ c.perLevel)
    (hr : 0 ≤ c.retractRate) :
    ∀ (events : List BeamEvent) (lvl L : Nat) (s : BeamState),
      lvl ≤ L → s.maxLength ≤ beamCeiling c L → (∀ e ∈ events, 0 ≤ e.dt) →
      (events.foldl (beamEventStep c) (lvl, s)).1 ≤
          (events.foldl beamLevelTrack (lvl, L)).2 ∧
        (events.foldl (beamEventStep c) (lvl, s)).2.maxLength ≤
          beamCeiling c (events.foldl beamLevelTrack (lvl, L)).2 := by
  intro events
  induction events with
  | nil =>
    intro lvl L s h1 h2 _
    exact ⟨h1, h2⟩
  | cons e rest ih =>
    intro lvl L s h1 h2 hdt
    have hdtrest : ∀ e2 ∈ rest, 0 ≤ e2.dt :=
      fun e2 he2 => hdt e2 (List.mem_cons_of_mem _ he2)
    simp only [List.foldl_cons]
    cases e with
    | fire dt =>
      have hdt0 : 0 ≤ dt := by
        have := hdt _ (List.mem_cons_self _ _)
        simpa [BeamEvent.dt] using this
      simp only [beamEventStep, beamLevelTrack]
      exact ih lvl L _ h1
        (beamFireStep_maxLength_le c hr dt hdt0 s _ (beamCeiling_nonneg c hb hp L) h2)
        hdtrest
    | idle dt =>
      simp only [beamEventStep, beamLevelTrack]
      exact ih lvl L _ h1 (beamIdleStep_maxLength_le c hp lvl dt s L h1 h2) hdtrest
    | pickupBeam =>
      simp only [beamEventStep, beamLevelTrack]
      exact ih (min (lvl + 1) 8) (max L (min (lvl + 1) 8)) s (le_max_right _ _)
        (le_trans h2 (beamCeiling_mono c hp (le_max_left _ _))) hdtrest
    | shipDie =>
      simp only [beamEventStep, beamLevelTrack]
      exact ih (lvl - 1) L s (by omega) h2 hdtrest

/-- C4 (amended): with nonnegative beam constants and nonnegative frame
deltas, after any sequence of beam events (sustained fire with
overheating shrink, retraction/idle recharge, beam powerup pickups, ship
deaths) `max_length` never exceeds `base + per_level * (highest beam
weapon level held during the beam's lifetime)`; in particular recharge
alone can never push it past the ceiling of the current level.  (The
bound `base + per_level * (current level)` of the original claim fails
when the level decreases: see the counterexample.) -/
theorem beam_max_length_bounded (c : BeamConsts) (hb : 0 ≤ c.base)
    (hp : 0 ≤ c.perLevel) (hr : 0 ≤ c.retractRate) (level0 : Nat)
    (events : List BeamEvent) (hdt : ∀ e ∈ events, 0 ≤ e.dt) :
    (beamRun c level0 events).2.maxLength ≤
        beamCeiling c (beamMaxLevel level0 events) ∧
      (beamRun c level0 events).1 ≤ beamMaxLevel level0 events := by
  have h := beam_invariant_aux c hb hp hr events level0 level0 (beamSpawn c level0)
    (le_refl _) (le_of_eq rfl) hdt
  exact ⟨h.2, h.1⟩

/-- C4 witness: the bound applied to the sample constants and a concrete
event sequence containing fire, a death and a long recharge. -/
theorem beam_max_length_bounded_witness :
    (0 : ℚ) ≤ beamSampleConsts.base ∧
      (0 : ℚ) ≤ beamSampleConsts.perLevel ∧
      (0 : ℚ) ≤ beamSampleConsts.retractRate ∧
      (∀ e ∈ [BeamEvent.fire 1, BeamEvent.shipDie, BeamEvent.idle 500], 0 ≤ e.dt) ∧
      (beamRun beamSampleConsts 1
            [BeamEvent.fire 1, BeamEvent.shipDie, BeamEvent.idle 500]).2.maxLength ≤
        beamCeiling beamSampleConsts
          (beamMaxLevel 1 [BeamEvent.fire 1, BeamEvent.shipDie, BeamEvent.idle 500]) :=
  ⟨by norm_num [beamSampleConsts], by norm_num [beamSampleConsts],
    by norm_num [beamSampleConsts],
    by intro e he; fin_cases he <;> norm_num [BeamEvent.dt],
    (beam_max_length_bounded beamSampleConsts (by norm_num [beamSampleConsts])
      (by norm_num [beamSampleConsts]) (by norm_num [beamSampleConsts]) 1
      [BeamEvent.fire 1, BeamEvent.shipDie, BeamEvent.idle 500]
      (by intro e he; fin_cases he <;> norm_num [BeamEvent.dt])).1⟩

/-- C4 counterexample: under the sample constants, a ship death
(`Ship::die` decrements `weapon_beam_level`) while a beam is alive leaves
`max_length` strictly above `base + per_level * (current beam weapon
level)`, so the claimed invariant against the *current* level fails. -/
theorem beam_ceiling_violated_after_die_cex :
    (beamRun beamSampleConsts 1 [BeamEvent.shipDie]).1 = 0 ∧
      (beamRun beamSampleConsts 1 [BeamEvent.shipDie]).2.maxLength = 150 ∧
      beamCeiling beamSampleConsts
          ((beamRun beamSampleConsts 1 [BeamEvent.shipDie]).1) <
        (beamRun beamSampleConsts 1 [BeamEvent.shipDie]).2.maxLength := by
  refine ⟨rfl, ?_, ?_⟩ <;>
    norm_num [beamRun, beamEventStep, beamSpawn, beamCeiling, beamSampleConsts]

end Spacerocks
